import Mathlib

/-!
Shallow embedding of the Nano_WebRelay8 sketch (src/Nano_WebRelay8.ino).

The request handler of `loop()` together with `getGetData`, `changeRelayStatus`
and `printRelayStatus` is modelled as pure functions over the byte buffer of one
request (`List Char`) and the relay state array `portStatus` (`List Bool`).
The client output stream is modelled as the `String` of all bytes printed.
`digitalWrite` calls mirror `portStatus` and carry no extra observable state,
so only the boolean array is kept.

Two incidental undefined behaviours of the C source are modelled by their
evident intent: the copies `memcpy(relNumChar, lastSrc, relLen)` and
`memcpy(statChar, lastSrc, statLen)` go through uninitialized pointers and are
not null-terminated — they are modelled as `atoi` reading exactly the intended
slice — and the stray terminator write `*(command+(size_t)msgEnd) = 0` is
modelled as the intended `*msgEnd = 0` (which only re-writes a byte the caller
already zeroed).  The wild-pointer call after the query-string error path,
by contrast, is semantically significant and is modelled explicitly (see
`handleRequest`).
-/

namespace WebRelay

/-- `const int numRelays = 8;` (line 113). -/
def numRelays : Nat := 8

/-- `const int maxSize = 480;` (line 121). -/
def maxSize : Nat := 480

/-- `const int RCL = 2 + (numRelays > 9 ? 2 : 1);` (line 148), kept as a
function of the relay count so that spec properties over the count can be
stated. -/
def RCL (n : Nat) : Nat := 2 + (if n > 9 then 2 else 1)

/-- C `isspace` on the ASCII range: 0x20 and 0x09..0x0d. Used by `atoi`. -/
def isSpaceC (c : Char) : Bool := c.toNat = 32 || (9 ≤ c.toNat && c.toNat ≤ 13)

/-- ASCII decimal digit test, as used by C `atoi`. -/
def isDig (c : Char) : Bool := 48 ≤ c.toNat && c.toNat ≤ 57

/-- The digit-accumulating loop of C `atoi`: consume leading decimal digits,
stop at the first non-digit. -/
def digitsVal : List Char → Nat → Nat
  | [], acc => acc
  | c :: cs, acc => if isDig c then digitsVal cs (10 * acc + (c.toNat - 48)) else acc

/-- C `atoi` on a byte slice: skip leading whitespace, read one optional sign
(`-` is 45, `+` is 43), then leading digits; a string with no digit prefix
yields 0.  The sketch calls `atoi` on the copied key slice (line 363) and on
the copied one-byte value slice (line 393). -/
def atoiInt (l : List Char) : Int :=
  match l.dropWhile isSpaceC with
  | [] => 0
  | c :: cs =>
    if c.toNat = 45 then - (digitsVal cs 0 : Int)
    else if c.toNat = 43 then (digitsVal cs 0 : Int)
    else (digitsVal (c :: cs) 0 : Int)

/-- Index of the first occurrence of `c` in `l`, if any (the in-bounds part of
C `memchr`). -/
def findChar (c : Char) : List Char → Option Nat
  | [] => none
  | x :: xs => if x = c then some 0 else (findChar c xs).map (fun k => k + 1)

/-- Index of the first occurrence of `c` in `l` at position `s` or later
(`memchr(base + s, c, len)`; the search never matches the terminating null
byte, so bounding it by the buffer end is faithful). -/
def findCharFrom (c : Char) (s : Nat) (l : List Char) : Option Nat :=
  (findChar c (l.drop s)).map (fun k => k + s)

/-- Result of one iteration of the `do { ... } while(src)` loop of
`changeRelayStatus` (lines 342-428). -/
inductive StepOut where
  | fail (e : Nat)
  | done (σ : List Bool)
  | cont (σ : List Bool) (rest : List Char)
  deriving DecidableEq, Repr

/-- One iteration of the segment loop of `changeRelayStatus`, acting on the
yet-unconsumed command slice `cmd` (whose head is the `&` found by the
previous iteration, when there was one — the code re-enters the loop with
`src` still pointing at that `&`, so the key slice of every iteration after
the first includes it):
  * `memchr(src+1, '=', srcNum)` (line 346): no `=` → error 6;
  * `relLen <= RCL` (line 355): otherwise error 4;
  * `relNum = atoi(key slice)` and `relNum < numRelays && relNum >= 0`
    (lines 363-368): otherwise error 4;
  * `memchr(src+2, '&', srcNum)` and `statLen != 1` (lines 380-384):
    otherwise error 5;
  * `stat = atoi(value byte)` and the `switch` (lines 393-425):
    1 sets the relay when off, 0 clears it when on, 2 always flips,
    anything else is error 5. -/
def crsStep (n : Nat) (cmd : List Char) (σ : List Bool) : StepOut :=
  match findCharFrom '=' 1 cmd with
  | none => StepOut.fail 6
  | some e =>
    if RCL n < e then StepOut.fail 4
    else
      let relNum := atoiInt (cmd.take e)
      if relNum < (n : Int) ∧ 0 ≤ relNum then
        let ri := relNum.toNat
        let amp := findCharFrom '&' (e + 2) cmd
        let statLen := match amp with
          | some a => a - (e + 1)
          | none => cmd.length - e - 1
        if statLen = 1 then
          let stat := atoiInt ((cmd.drop (e + 1)).take 1)
          if stat = 1 ∨ stat = 0 ∨ stat = 2 then
            let σn :=
              if stat = 1 then (if σ.getD ri false then σ else σ.set ri true)
              else if stat = 0 then (if σ.getD ri false then σ.set ri false else σ)
              else σ.set ri (!(σ.getD ri false))
            match amp with
            | some a => StepOut.cont σn (cmd.drop a)
            | none => StepOut.done σn
          else StepOut.fail 5
        else StepOut.fail 5
      else StepOut.fail 4

/-- The segment loop of `changeRelayStatus`, run with explicit fuel; every
iteration consumes at least three characters of the slice, so
`cmd.length + 1` units (see `crsLoop`) can never run out.  Returns the final
relay state together with `some` error code, or `none` on success. -/
def crsRun (n : Nat) : Nat → List Char → List Bool → List Bool × Option Nat
  | 0, _, σ => (σ, none)
  | fuel + 1, cmd, σ =>
    match crsStep n cmd σ with
    | StepOut.fail e => (σ, some e)
    | StepOut.done σ' => (σ', none)
    | StepOut.cont σ' rest => crsRun n fuel rest σ'

/-- The `do/while` segment loop of `changeRelayStatus` (lines 342-428). -/
def crsLoop (n : Nat) (cmd : List Char) (σ : List Bool) : List Bool × Option Nat :=
  crsRun n (cmd.length + 1) cmd σ

/-- `HD_START ++ code ++ HD_END`, what `returnHeader` prints (lines 470-474). -/
def httpHeader (code : Nat) : String :=
  "HTTP/1.1 " ++ toString code ++ " \nContent-Type: application/json\nConnection: close\n\n"

/-- What `returnErr` prints (lines 457-465): `RS_ERR_START`, the code, then
`println(RS_ERR_END)`. -/
def errJson (e : Nat) : String := "\x7b\"e\":" ++ toString e ++ "\x7d\r\n"

/-- 500 header plus error body, the sketch's error response framing. -/
def respErr (e : Nat) : String := httpHeader 500 ++ errJson e

/-- The relay cells printed by the loop of `printRelayStatus` (lines 443-450):
quoted `ON`/`OFF` per relay with `,` after every non-final cell. -/
def relayCells (n : Nat) (σ : List Bool) : String :=
  String.join ((List.range n).map (fun i =>
    "\"" ++ (if σ.getD i false then "ON" else "OFF") ++ "\"" ++
      (if i < n - 1 then "," else "")))

/-- What `printRelayStatus` prints (lines 439-452): `RS_START`, the cells,
then `println(RS_END)`. -/
def statusJson (n : Nat) (σ : List Bool) : String :=
  "\x7b\"r\":[" ++ relayCells n σ ++ "]\x7d\r\n"

/-- 200 header plus full status body, the sketch's success response. -/
def respOk (n : Nat) (σ : List Bool) : String := httpHeader 200 ++ statusJson n σ

/-- `const char* VERSION` (line 124). -/
def versionJson : String := "\x7b\"version\":\"0.3.OPENHAB\"\x7d"

/-- `changeRelayStatus` (lines 319-432): reject commands shorter than 3 bytes
with error 3, otherwise run the segment loop and answer either the error
framing or the 200 framing plus the final relay status. -/
def changeRelayStatus (n : Nat) (cmd : List Char) (σ : List Bool) : List Bool × String :=
  if cmd.length < 3 then (σ, respErr 3)
  else
    match crsLoop n cmd σ with
    | (σ', some e) => (σ', respErr e)
    | (σ', none) => (σ', respOk n σ')

/-- `getGetData(msg, 4)` (lines 300-306): the path starts at byte 4 and ends at
the first space among the next 10 bytes, or at the end of the message when no
space is found there. -/
def getGetData (req : List Char) : List Char :=
  match findChar ' ' ((req.drop 4).take 10) with
  | some k => (req.drop 4).take k
  | none => req.drop 4

/-- Index of the last line feed in the buffer, the result of the
`do { lnl = src; src = memchr(src+1, '\n', ...); } while(src);` scan of the
POST body branch (lines 267-274). -/
def lastNL (l : List Char) : Option Nat :=
  (findChar '\n' l.reverse).map (fun k => l.length - 1 - k)

/-- The request handler of `loop()` (lines 198-294) for one request `req` with
current relay state `σ`, returning the new state and everything written to the
client.  `garbage` stands for the bytes the program reads through the wild
pointer `lnl + 1` when the query-string branch finds no space: the code sets
`lnl = NULL` only on that path and, lacking a `return`, still calls
`changeRelayStatus(client, lnl+1, end)` (line 277), so the parsed "command" is
whatever unrelated memory holds. -/
def handleRequest (garbage : List Char) (req : List Char) (σ : List Bool) :
    List Bool × String :=
  if req.length = 0 then (σ, "")
  else if maxSize < req.length then (σ, respErr 1)
  else if req.take 3 = "GET".toList then
    (σ, httpHeader 200 ++
      (if getGetData req = "/about".toList then versionJson ++ "\r\n"
       else statusJson numRelays σ))
  else if req.take 4 = "POST".toList then
    if (req.drop 6).take 1 = ['?'] then
      match findCharFrom ' ' 6 req with
      | some sp => changeRelayStatus numRelays ((req.take sp).drop 7) σ
      | none =>
        let r := changeRelayStatus numRelays garbage σ
        (r.1, respErr 6 ++ r.2)
    else
      let cs := match lastNL req with
        | some j => req.drop (j + 1)
        | none => req
      changeRelayStatus numRelays cs σ
  else (σ, respErr 2)

/-- The all-off state `portStatus` starts in (line 117). -/
def allOff : List Bool := List.replicate 8 false

/-- Chains of fully validated and applied segments: `SegPath n cmd σ c' σ'`
holds when the segment loop, started on slice `cmd` in state `σ`, reaches the
pending slice `c'` in state `σ'` by applying zero or more leading segments in
order. -/
inductive SegPath (n : Nat) : List Char → List Bool → List Char → List Bool → Prop
  | refl (cmd : List Char) (σ : List Bool) : SegPath n cmd σ cmd σ
  | step {cmd rest c' : List Char} {σ σ₁ σ' : List Bool} :
      crsStep n cmd σ = StepOut.cont σ₁ rest → SegPath n rest σ₁ c' σ' →
      SegPath n cmd σ c' σ'

/-- The state component of one full `changeRelayStatus` call. -/
def runSeg (n : Nat) (cmd : List Char) (σ : List Bool) : List Bool :=
  (changeRelayStatus n cmd σ).1

end WebRelay

namespace WebRelay

theorem findChar_append_self (c : Char) (ys : List Char) :
    ∀ (xs : List Char), c ∉ xs → findChar c (xs ++ c :: ys) = some xs.length := by
  intro xs
  induction xs with
  | nil => intro _; simp [findChar]
  | cons x xs ih =>
    intro h
    have hx : ¬ x = c := by
      intro hxc
      exact h (by simp [hxc])
    have hxs : c ∉ xs := fun hm => h (List.mem_cons_of_mem _ hm)
    simp [findChar, hx, ih hxs]

theorem findCharFrom_key (k rest : List Char) (hk : k ≠ []) (hne : '=' ∉ k) :
    findCharFrom '=' 1 (k ++ '=' :: rest) = some k.length := by
  cases k with
  | nil => exact absurd rfl hk
  | cons x xs =>
    have hxs : '=' ∉ xs := fun hm => hne (List.mem_cons_of_mem _ hm)
    simp [findCharFrom, findChar_append_self '=' rest xs hxs]

end WebRelay

namespace WebRelay

theorem RCL_eight : RCL 8 = 3 := rfl

theorem eq_ofNat_of_toNat (c : Char) (t : Nat) (h : c.toNat = t) : c = Char.ofNat t := by
  rw [← h, Char.ofNat_toNat]

theorem atoiInt_digit (c : Char) (h1 : 48 ≤ c.toNat) (h2 : c.toNat ≤ 57) :
    atoiInt [c] = ((c.toNat - 48 : Nat) : Int) := by
  have hs : isSpaceC c = false := by
    simp [isSpaceC]
    omega
  have hd : isDig c = true := by
    simp [isDig]
    omega
  simp [atoiInt, List.dropWhile, hs, digitsVal, hd]
  omega

theorem getD_set_self (l : List Bool) (i : Nat) (b : Bool) (h : i < l.length) :
    (l.set i b).getD i false = b := by
  induction l generalizing i with
  | nil => simp at h
  | cons x xs ih =>
    cases i with
    | zero => rfl
    | succ j =>
      simp only [List.set_cons_succ, List.getD_cons_succ]
      exact ih j (by simpa using h)

theorem runSeg_on (n i : Nat) (σ : List Bool) (hi : i < n) (hn : n ≤ 9) :
    runSeg n [Char.ofNat (48 + i), '=', '1'] σ
      = (if σ.getD i false then σ else σ.set i true) := by
  have hi8 : i ≤ 8 := by omega
  have hd : (Char.ofNat (48 + i)).toNat = 48 + i := by
    interval_cases i <;> rfl
  have hkey : atoiInt [Char.ofNat (48 + i)] = (i : Int) := by
    rw [atoiInt_digit _ (by omega) (by omega), hd]
    simp
  have hrcl : ¬ RCL n < 1 := by
    unfold RCL
    split <;> omega
  have hval : atoiInt ['1'] = 1 := rfl
  unfold runSeg changeRelayStatus
  rw [if_neg (by simp)]
  unfold crsLoop
  simp [crsRun, crsStep, findCharFrom, findChar, hkey, hrcl, hval, hi]

theorem runSeg_off (n i : Nat) (σ : List Bool) (hi : i < n) (hn : n ≤ 9) :
    runSeg n [Char.ofNat (48 + i), '=', '0'] σ
      = (if σ.getD i false then σ.set i false else σ) := by
  have hi8 : i ≤ 8 := by omega
  have hd : (Char.ofNat (48 + i)).toNat = 48 + i := by
    interval_cases i <;> rfl
  have hkey : atoiInt [Char.ofNat (48 + i)] = (i : Int) := by
    rw [atoiInt_digit _ (by omega) (by omega), hd]
    simp
  have hrcl : ¬ RCL n < 1 := by
    unfold RCL
    split <;> omega
  have hval : atoiInt ['0'] = 0 := rfl
  unfold runSeg changeRelayStatus
  rw [if_neg (by simp)]
  unfold crsLoop
  simp [crsRun, crsStep, findCharFrom, findChar, hkey, hrcl, hval, hi]

theorem runSeg_inv (n i : Nat) (σ : List Bool) (hi : i < n) (hn : n ≤ 9) :
    runSeg n [Char.ofNat (48 + i), '=', '2'] σ = σ.set i (!(σ.getD i false)) := by
  have hi8 : i ≤ 8 := by omega
  have hd : (Char.ofNat (48 + i)).toNat = 48 + i := by
    interval_cases i <;> rfl
  have hkey : atoiInt [Char.ofNat (48 + i)] = (i : Int) := by
    rw [atoiInt_digit _ (by omega) (by omega), hd]
    simp
  have hrcl : ¬ RCL n < 1 := by
    unfold RCL
    split <;> omega
  have hval : atoiInt ['2'] = 2 := rfl
  unfold runSeg changeRelayStatus
  rw [if_neg (by simp)]
  unfold crsLoop
  simp [crsRun, crsStep, findCharFrom, findChar, hkey, hrcl, hval, hi]

theorem crsRun_fail_path (n : Nat) :
    ∀ (fuel : Nat) (cmd : List Char) (σ σf : List Bool) (e : Nat),
      crsRun n fuel cmd σ = (σf, some e) →
      ∃ c', SegPath n cmd σ c' σf ∧ crsStep n c' σf = StepOut.fail e := by
  intro fuel
  induction fuel with
  | zero =>
    intro cmd σ σf e h
    simp [crsRun] at h
  | succ fuel ih =>
    intro cmd σ σf e h
    simp only [crsRun] at h
    cases hstep : crsStep n cmd σ with
    | fail e' =>
      rw [hstep] at h
      simp only [Prod.mk.injEq, Option.some.injEq] at h
      obtain ⟨h1, h2⟩ := h
      subst h1
      subst h2
      exact ⟨cmd, SegPath.refl cmd σ, hstep⟩
    | done σ' =>
      rw [hstep] at h
      simp at h
    | cont σ' rest =>
      rw [hstep] at h
      obtain ⟨c', hp, hf⟩ := ih rest σ' σf e h
      exact ⟨c', SegPath.step hstep hp, hf⟩

end WebRelay

namespace WebRelay

theorem findChar_lt (c : Char) : ∀ (l : List Char) (k : Nat),
    findChar c l = some k → k < l.length := by
  intro l
  induction l with
  | nil =>
    intro k h
    simp [findChar] at h
  | cons x xs ih =>
    intro k h
    simp only [findChar] at h
    by_cases hx : x = c
    · rw [if_pos hx] at h
      simp at h
      simp [← h]
    · rw [if_neg hx] at h
      cases hf : findChar c xs with
      | none =>
        rw [hf] at h
        simp at h
      | some j =>
        rw [hf] at h
        simp at h
        have := ih j hf
        simp
        omega

theorem findCharFrom_bound (c : Char) (s : Nat) (l : List Char) (i : Nat)
    (h : findCharFrom c s l = some i) : s ≤ i ∧ i < l.length := by
  unfold findCharFrom at h
  cases hf : findChar c (l.drop s) with
  | none =>
    rw [hf] at h
    simp at h
  | some k =>
    rw [hf] at h
    simp at h
    have hk := findChar_lt c (l.drop s) k hf
    rw [List.length_drop] at hk
    omega

theorem crsStep_cont_length (n : Nat) (cmd rest : List Char) (σ σ' : List Bool)
    (h : crsStep n cmd σ = StepOut.cont σ' rest) : rest.length < cmd.length := by
  unfold crsStep at h
  cases hfe : findCharFrom '=' 1 cmd with
  | none =>
    rw [hfe] at h
    simp at h
  | some e =>
    rw [hfe] at h
    simp only [] at h
    split at h
    · simp at h
    · split at h
      · split at h
        · split at h
          · cases hamp : findCharFrom '&' (e + 2) cmd with
            | none =>
              rw [hamp] at h
              simp at h
            | some a =>
              rw [hamp] at h
              simp only [StepOut.cont.injEq] at h
              obtain ⟨h1, h2⟩ := h
              have hb := findCharFrom_bound '&' (e + 2) cmd a hamp
              rw [← h2, List.length_drop]
              omega
          · simp at h
        · simp at h
      · simp at h


theorem crsRun_fuel_irrel (n : Nat) : ∀ (f1 f2 : Nat) (cmd : List Char) (σ : List Bool),
    cmd.length < f1 → cmd.length < f2 → crsRun n f1 cmd σ = crsRun n f2 cmd σ := by
  intro f1
  induction f1 with
  | zero =>
    intro f2 cmd σ h1 _
    omega
  | succ f1 ih =>
    intro f2 cmd σ h1 h2
    cases f2 with
    | zero => omega
    | succ f2 =>
      simp only [crsRun]
      cases hstep : crsStep n cmd σ with
      | fail e => rfl
      | done σ' => rfl
      | cont σ' rest =>
        have hlt := crsStep_cont_length n cmd rest σ σ' hstep
        exact ih f2 rest σ' (by omega) (by omega)


theorem crsStep_value_digit (k rest : List Char) (c : Char) (σ : List Bool)
    (hk : k ≠ []) (hne : '=' ∉ k) (hk3 : k.length ≤ 3)
    (hrange : atoiInt k < (8 : Int) ∧ 0 ≤ atoiInt k)
    (hone : rest = [] ∨ ∃ r', rest = '&' :: r')
    (hc1 : 51 ≤ c.toNat) (hc2 : c.toNat ≤ 57) :
    crsStep 8 (k ++ '=' :: c :: rest) σ = StepOut.fail 5 := by
  have hfind := findCharFrom_key k (c :: rest) hk hne
  have hsplit2 : k ++ '=' :: c :: rest = (k ++ ['=', c]) ++ rest := by simp
  have hdrop2 : (k ++ '=' :: c :: rest).drop (k.length + 2) = rest := by
    rw [hsplit2]
    have hl : (k ++ ['=', c]).length = k.length + 2 := by simp
    rw [← hl, List.drop_left]
  have hsplit1 : k ++ '=' :: c :: rest = (k ++ ['=']) ++ c :: rest := by simp
  have hdrop1 : (k ++ '=' :: c :: rest).drop (k.length + 1) = c :: rest := by
    rw [hsplit1]
    have hl : (k ++ ['=']).length = k.length + 1 := by simp
    rw [← hl, List.drop_left]
  have hstat : atoiInt [c] = ((c.toNat - 48 : Nat) : Int) :=
    atoiInt_digit c (by omega) hc2
  have hnot : ¬ (atoiInt [c] = 1 ∨ atoiInt [c] = 0 ∨ atoiInt [c] = 2) := by
    rw [hstat]
    omega
  simp only [crsStep, hfind, RCL_eight]
  rw [if_neg (by omega), List.take_left]
  rw [if_pos (by exact_mod_cast hrange)]
  simp only [findCharFrom, hdrop2, hdrop1]
  rcases hone with h | ⟨r', h⟩
  · subst h
    have hfc : findChar '&' ([] : List Char) = none := rfl
    have htake : List.take 1 [c] = [c] := rfl
    simp only [hfc, Option.map, htake]
    rw [if_pos (by simp [List.length_append])]
    rw [if_neg hnot]
  · subst h
    have hfc : findChar '&' ('&' :: r') = some 0 := by simp [findChar]
    have htake : List.take 1 (c :: '&' :: r') = [c] := rfl
    simp only [hfc, Option.map, htake]
    rw [if_pos (by omega)]
    rw [if_neg hnot]

theorem crsRun_of_segPath (n : Nat) (cmd0 cmd : List Char) (σ0 σf : List Bool) (e : Nat)
    (hpath : SegPath n cmd0 σ0 cmd σf) :
    crsStep n cmd σf = StepOut.fail e →
      ∀ fuel, cmd0.length < fuel → crsRun n fuel cmd0 σ0 = (σf, some e) := by
  induction hpath with
  | refl c σ =>
    intro hfail fuel hf
    cases fuel with
    | zero => omega
    | succ f => simp only [crsRun, hfail]
  | step hstep hp ih =>
    intro hfail fuel hf
    cases fuel with
    | zero => omega
    | succ f =>
      have hlt := crsStep_cont_length _ _ _ _ _ hstep
      simp only [crsRun, hstep]
      exact ih hfail f (by omega)

/-- Claim C1 (code bug, evaluated): on an all-off 8-relay bank the command
`0=1&1=0&2=2` does NOT produce the documented result.  The loop re-enters with
`src` still at the separating `&`, so the keys of segments 2 and 3 are the
slices `&1` and `&2`, which `atoi` maps to 0: all three operations hit relay 0
and the final state is ON,OFF,OFF,... (relay 2 stays off), not the
ON,OFF,ON,... the sketch's own documentation (and the spec) promise. -/
theorem c1_multi_segment_result :
    changeRelayStatus 8 ("0=1&1=0&2=2".toList) allOff
      = ([true, false, false, false, false, false, false, false],
         respOk 8 [true, false, false, false, false, false, false, false])
    ∧ ([true, false, false, false, false, false, false, false] : List Bool)
        ≠ [true, false, true, false, false, false, false, false] :=
  ⟨rfl, by decide⟩

/-- Claim C2 (counterexample): the payload `x=1` has a non-numeral key, yet it
is NOT rejected with error 4 and the bank IS mutated: `atoi("x") = 0`, so the
segment is accepted as relay 0 and relay 0 is switched on with a 200 status
response. -/
theorem c2_nonnumeric_key_counterexample :
    changeRelayStatus 8 ("x=1".toList) allOff
      = ([true, false, false, false, false, false, false, false],
         respOk 8 [true, false, false, false, false, false, false, false])
    ∧ changeRelayStatus 8 ("x=1".toList) allOff ≠ (allOff, respErr 4) :=
  ⟨rfl, by decide⟩

/-- Claim C2 (amended): for a payload of length ≥ 3 whose first-segment key
`k` (the bytes before the first `=`, which is searched from offset 1) has
length ≤ RCL = 3, the parser answers the 500 framing with body e:4 and applies
no mutation exactly when the `atoi` value of `k` lies outside `[0, 8)`;
non-numeral keys whose `atoi` value is in range (such as `x`, parsed as 0) are
accepted instead. -/
theorem c2_key_range_amended (k rest : List Char) (σ : List Bool)
    (hk : k ≠ []) (hne : '=' ∉ k) (hk3 : k.length ≤ 3)
    (hlen3 : 3 ≤ (k ++ '=' :: rest).length)
    (hout : ¬ (atoiInt k < (8 : Int) ∧ 0 ≤ atoiInt k)) :
    changeRelayStatus 8 (k ++ '=' :: rest) σ = (σ, respErr 4) := by
  have hfind := findCharFrom_key k rest hk hne
  unfold changeRelayStatus
  rw [if_neg (by omega)]
  unfold crsLoop
  simp only [crsRun, crsStep, hfind, RCL_eight]
  rw [if_neg (by omega), List.take_left]
  rw [if_neg (by exact_mod_cast hout)]

/-- Witness for the amended C2: the out-of-range key `9` in `9=1` is rejected
with e:4 and the bank is unchanged. -/
theorem c2_key_range_amended_witness :
    changeRelayStatus 8 (['9'] ++ '=' :: ['1']) allOff = (allOff, respErr 4) :=
  c2_key_range_amended ['9'] ['1'] allOff (by decide) (by decide) (by decide)
    (by decide) (by decide)

/-- Claim C3 (counterexample): the 1-byte value `x` in `0=x` is not one of
`0`,`1`,`2`, yet the response is NOT e:5: `atoi("x") = 0`, so the segment is
applied as OFF and the request succeeds with a 200 status response. -/
theorem c3_value_counterexample :
    changeRelayStatus 8 ("0=x".toList) allOff = (allOff, respOk 8 allOff)
    ∧ changeRelayStatus 8 ("0=x".toList) allOff ≠ (allOff, respErr 5) :=
  ⟨rfl, by decide⟩

/-- Claim C3 (amended): a segment's 1-byte value goes through `atoi`, so only
the digit bytes `3`..`9` (codes 51..57) are rejected with the 500 framing and
body e:5; the bytes `0`,`1`,`2` select OFF/ON/INVERT and every non-digit byte
parses to 0 and is applied as OFF.  Stated for a failing segment in any
position: after any chain of validated segments (`SegPath`) has brought the
loop to the slice `k ++ '=' :: c :: rest` in state `σf` — for any accepted key
slice `k`, including the `&`-contaminated keys of later segments — a 1-byte
value `c` in `3`..`9` makes the whole request answer the 500 framing with body
e:5, and the failing segment contributes no mutation: the final state is
exactly `σf`. -/
theorem c3_value_amended (cmd0 k rest : List Char) (c : Char) (σ0 σf : List Bool)
    (hpath : SegPath 8 cmd0 σ0 (k ++ '=' :: c :: rest) σf)
    (hlen : 3 ≤ cmd0.length)
    (hk : k ≠ []) (hne : '=' ∉ k) (hk3 : k.length ≤ 3)
    (hrange : atoiInt k < (8 : Int) ∧ 0 ≤ atoiInt k)
    (hone : rest = [] ∨ ∃ r', rest = '&' :: r')
    (hc1 : 51 ≤ c.toNat) (hc2 : c.toNat ≤ 57) :
    changeRelayStatus 8 cmd0 σ0 = (σf, respErr 5) := by
  have hfail := crsStep_value_digit k rest c σf hk hne hk3 hrange hone hc1 hc2
  have hrun := crsRun_of_segPath 8 cmd0 (k ++ '=' :: c :: rest) σ0 σf 5 hpath hfail
    (cmd0.length + 1) (by omega)
  unfold changeRelayStatus
  rw [if_neg (by omega)]
  unfold crsLoop
  rw [hrun]

/-- Witness for the amended C3: in `0=1&1=7` the first segment is applied
(relay 0 on), then the second segment's value `7` is rejected with e:5 while
the state keeps relay 0 on. -/
theorem c3_value_amended_witness :
    changeRelayStatus 8 ("0=1&1=7".toList) allOff
      = ([true, false, false, false, false, false, false, false], respErr 5) :=
  c3_value_amended ("0=1&1=7".toList) ['&', '1'] [] '7' allOff
    [true, false, false, false, false, false, false, false]
    (SegPath.step rfl (SegPath.refl _ _))
    (by decide) (by decide) (by decide) (by decide) (by decide)
    (Or.inl rfl) (by decide) (by decide)

/-- Claim C4 (counterexample): with 8 relays the key `007` is longer than one
digit, yet `007=1` is NOT rejected: the length check is `relLen <= RCL` with
`RCL = 3` (the length of a whole segment, not of a key), so the 3-byte key
passes, `atoi("007") = 7`, and relay 7 is switched on with a 200 response. -/
theorem c4_key_length_counterexample :
    changeRelayStatus 8 ("007=1".toList) allOff
      = ([false, false, false, false, false, false, false, true],
         respOk 8 [false, false, false, false, false, false, false, true])
    ∧ changeRelayStatus 8 ("007=1".toList) allOff ≠ (allOff, respErr 4) :=
  ⟨rfl, by decide⟩

/-- Claim C4 (amended): with 8 relays, a first-segment key is rejected for its
length (500 framing, body e:4, no mutation) exactly when it is longer than
RCL = 3 bytes; keys of 2 or 3 digits such as `007` pass the length check. -/
theorem c4_key_length_amended (k rest : List Char) (σ : List Bool)
    (hne : '=' ∉ k) (hk : 3 < k.length) :
    changeRelayStatus 8 (k ++ '=' :: rest) σ = (σ, respErr 4) := by
  have hnil : k ≠ [] := by
    intro h
    rw [h] at hk
    simp at hk
  have hfind := findCharFrom_key k rest hnil hne
  have hlen : (k ++ '=' :: rest).length = k.length + 1 + rest.length := by
    simp [List.length_append]
    omega
  unfold changeRelayStatus
  rw [if_neg (by omega)]
  unfold crsLoop
  simp only [crsRun, crsStep, hfind, RCL_eight]
  rw [if_pos (by omega)]

/-- Witness for the amended C4: the 4-byte key `0007` in `0007=1` is rejected
with e:4 and the bank is unchanged. -/
theorem c4_key_length_amended_witness :
    changeRelayStatus 8 (['0', '0', '0', '7'] ++ '=' :: ['1']) allOff
      = (allOff, respErr 4) :=
  c4_key_length_amended ['0', '0', '0', '7'] ['1'] allOff (by decide) (by decide)

/-- Claim C5 (code bug, evaluated): for the query-form POST `POST /?0=1` with
no space after the marker, the handler emits the 500 framing plus e:6 but then
— the branch lacks a `return` — still calls `changeRelayStatus` through the
wild pointer `lnl+1` (`lnl` is NULL on this path).  With the unrelated memory
it reads holding the bytes `0=1`, a second full 200 response follows the error
body and relay 0 is switched on: the output is more than the error response
and the Output Bank does change. -/
theorem c5_query_no_space_fallthrough :
    handleRequest ("0=1".toList) ("POST /?0=1".toList) allOff
      = ([true, false, false, false, false, false, false, false],
         respErr 6 ++ respOk 8 [true, false, false, false, false, false, false, false])
    ∧ ([true, false, false, false, false, false, false, false] : List Bool) ≠ allOff :=
  ⟨rfl, by decide⟩

/-- Claim C6: segments are validated and applied strictly left-to-right; when
validation fails the parser stops and answers the 500 framing with the error
code, and the state it leaves behind is exactly the state reached by the chain
of fully validated segments applied before the failing one — earlier mutations
are kept, the failing segment itself mutates nothing (no rollback). -/
theorem c6_no_rollback (n : Nat) (cmd : List Char) (σ σf : List Bool) (e : Nat)
    (hlen : 3 ≤ cmd.length) (h : crsLoop n cmd σ = (σf, some e)) :
    changeRelayStatus n cmd σ = (σf, respErr e) ∧
      ∃ c', SegPath n cmd σ c' σf ∧ crsStep n c' σf = StepOut.fail e := by
  constructor
  · unfold changeRelayStatus
    rw [if_neg (by omega), h]
  · exact crsRun_fail_path n _ cmd σ σf e h

/-- Witness for C6: in `0=1&1=9` the first segment turns relay 0 on, the
second fails with e:5; the error response reports the state with relay 0 still
on. -/
theorem c6_no_rollback_witness :
    changeRelayStatus 8 ("0=1&1=9".toList) allOff
        = ([true, false, false, false, false, false, false, false], respErr 5)
    ∧ ∃ c', SegPath 8 ("0=1&1=9".toList) allOff c'
          [true, false, false, false, false, false, false, false]
        ∧ crsStep 8 c' [true, false, false, false, false, false, false, false]
            = StepOut.fail 5 :=
  c6_no_rollback 8 ("0=1&1=9".toList) allOff
    [true, false, false, false, false, false, false, false] 5 (by decide) rfl

/-- Claim C7: a request larger than `maxSize = 480` bytes is answered with the
500 framing plus e:1 — before the content is read or parsed, whatever it and
the out-of-buffer memory hold — and the Output Bank is returned unchanged. -/
theorem c7_oversize_rejected (garbage req : List Char) (σ : List Bool)
    (h : maxSize < req.length) :
    handleRequest garbage req σ = (σ, respErr 1) := by
  have h0 : ¬ req.length = 0 := by
    unfold maxSize at h
    omega
  unfold handleRequest
  rw [if_neg h0, if_pos h]

/-- Witness for C7: a 481-byte request is rejected with e:1 and the all-off
bank is unchanged. -/
theorem c7_oversize_rejected_witness :
    handleRequest [] (List.replicate 481 'a') allOff = (allOff, respErr 1) :=
  c7_oversize_rejected [] (List.replicate 481 'a') allOff
    (by rw [List.length_replicate]; decide)

/-- Claim C8: whatever the relay state (and whatever the wild-pointer memory),
`GET /about HTTP/1.1` is answered with the 200 framing and the fixed version
payload; the response is one constant, so it does not depend on the relay
states, and the state is returned unchanged. -/
theorem c8_about_version (garbage : List Char) (σ : List Bool) :
    handleRequest garbage ("GET /about HTTP/1.1".toList) σ
      = (σ, httpHeader 200 ++ (versionJson ++ "\r\n")) := rfl

/-- Claim C9: for every relay count `n ≤ 9` (the sketch's documented maximum,
which keeps indices single digits) and every `i < n`: the segment `i=1` leaves
relay `i` on and is idempotent, `i=0` after `i=1` leaves relay `i` off, and
`i=2` always negates relay `i`'s stored state. -/
theorem c9_segment_ops (n i : Nat) (σ : List Bool)
    (hi : i < n) (hn : n ≤ 9) (hσ : σ.length = n) :
    (runSeg n [Char.ofNat (48 + i), '=', '1'] σ).getD i false = true
    ∧ runSeg n [Char.ofNat (48 + i), '=', '1']
        (runSeg n [Char.ofNat (48 + i), '=', '1'] σ)
        = runSeg n [Char.ofNat (48 + i), '=', '1'] σ
    ∧ (runSeg n [Char.ofNat (48 + i), '=', '0']
        (runSeg n [Char.ofNat (48 + i), '=', '1'] σ)).getD i false = false
    ∧ runSeg n [Char.ofNat (48 + i), '=', '2'] σ = σ.set i (!(σ.getD i false)) := by
  have hil : i < σ.length := by omega
  have h1 : (runSeg n [Char.ofNat (48 + i), '=', '1'] σ).getD i false = true := by
    rw [runSeg_on n i σ hi hn]
    by_cases hg : σ.getD i false = true
    · rw [if_pos hg]
      exact hg
    · rw [if_neg hg]
      exact getD_set_self σ i true hil
  refine ⟨h1, ?_, ?_, runSeg_inv n i σ hi hn⟩
  · rw [runSeg_on n i _ hi hn, if_pos h1]
  · rw [runSeg_off n i _ hi hn, if_pos h1]
    have hlen : (runSeg n [Char.ofNat (48 + i), '=', '1'] σ).length = σ.length := by
      rw [runSeg_on n i σ hi hn]
      by_cases hg : σ.getD i false = true
      · rw [if_pos hg]
      · rw [if_neg hg]
        exact List.length_set σ i true
    exact getD_set_self _ i false (by omega)

/-- Witness for C9 at n = 8, i = 2 on the all-off bank. -/
theorem c9_segment_ops_witness :
    (runSeg 8 [Char.ofNat (48 + 2), '=', '1'] allOff).getD 2 false = true
    ∧ runSeg 8 [Char.ofNat (48 + 2), '=', '1']
        (runSeg 8 [Char.ofNat (48 + 2), '=', '1'] allOff)
        = runSeg 8 [Char.ofNat (48 + 2), '=', '1'] allOff
    ∧ (runSeg 8 [Char.ofNat (48 + 2), '=', '0']
        (runSeg 8 [Char.ofNat (48 + 2), '=', '1'] allOff)).getD 2 false = false
    ∧ runSeg 8 [Char.ofNat (48 + 2), '=', '2'] allOff
        = allOff.set 2 (!(allOff.getD 2 false)) :=
  c9_segment_ops 8 2 allOff (by decide) (by decide) (by decide)

/-- Claim C10: every request whose first three bytes are `GET` leaves the
Output Bank unchanged — the GET branch only reads the relay states to render
its response. -/
theorem c10_get_no_mutation (garbage req : List Char) (σ : List Bool)
    (h : req.take 3 = "GET".toList) : (handleRequest garbage req σ).1 = σ := by
  unfold handleRequest
  by_cases h0 : req.length = 0
  · rw [if_pos h0]
  · rw [if_neg h0]
    by_cases h1 : maxSize < req.length
    · rw [if_pos h1]
    · rw [if_neg h1, if_pos h]

/-- Witness for C10: `GET / HTTP/1.1` leaves the all-off bank unchanged. -/
theorem c10_get_no_mutation_witness :
    (handleRequest [] ("GET / HTTP/1.1".toList) allOff).1 = allOff :=
  c10_get_no_mutation [] ("GET / HTTP/1.1".toList) allOff rfl

end WebRelay
